import Mathlib

/-!
Verification of the gobinpack (JBitPack) segment codec, container codec and
envelope framing, shallowly embedded from the Go sources `base.go`,
`document.go` and `membufio/membufio.go`.

Bytes are modelled as `Nat` values (each written byte is reduced modulo 256 at
the point where Go performs the corresponding integer-to-byte conversion).
Go's `(value, error)` multiple returns are modelled as products with
`Option GoErr` or as `Except GoErr`.  All reads and writes in the claims go
through the repository's own in-memory stream type `membufio.ByteSliceIO`,
which is embedded below as `ByteSliceBuf` (the name is shortened; the fields
`Buffer` and `Index` match the Go structure, and `BufferLength` is represented
by `Buffer.length`, which the Go code keeps equal to it at all times).
-/

/-- Error values used by the embedded code.  Each constructor stands for one
distinct Go `error` value: the `M`-suffixed empty-data error is
`membufio.ErrEmptyData`, `errEOF` is the `errors.New("EOF")` created inside
`membufio` (a distinct value from `io.EOF`), and `errIoEOF` is `io.EOF`.  The
remaining constructors are the package-level error variables of the
`oganesson` package (`ErrInvalidSegment`, `ErrInvalidKey`, `ErrSegmentSize`,
`ErrIO`, `ErrTypeError`, `ErrSize`, `ErrEmptyData`, `ErrNetworkError`,
`ErrInvalidMsg`). -/
inductive GoErr where
  | errEmptyDataM
  | errRange
  | errEOF
  | errIoEOF
  | errInvalidSegment
  | errInvalidKey
  | errSegmentSize
  | errIo
  | errTypeError
  | errSize
  | errEmptyData
  | errNetworkError
  | errInvalidMsg
  deriving DecidableEq, Repr

/-- Decidable equality for `Except`, so that concrete runs of the embedded
code can be checked by `decide`. -/
instance {ε α : Type} [DecidableEq ε] [DecidableEq α] : DecidableEq (Except ε α)
  | .error e, .error f =>
      if h : e = f then isTrue (by rw [h]) else isFalse (by simp [h])
  | .error _, .ok _ => isFalse (by simp)
  | .ok _, .error _ => isFalse (by simp)
  | .ok a, .ok b =>
      if h : a = b then isTrue (by rw [h]) else isFalse (by simp [h])

/-- Embedding of `membufio.ByteSliceIO`: a byte buffer with a current
position.  `BufferLength` of the Go structure is `Buffer.length`. -/
structure ByteSliceBuf where
  Buffer : List Nat
  Index : Nat
  deriving DecidableEq, Repr

/-- Embedding of `membufio.New`: a stream positioned at the start of the given
byte slice. -/
def mkBuf (p : List Nat) : ByteSliceBuf := ⟨p, 0⟩

/-- Embedding of `membufio.Make`: a stream over a freshly allocated
zero-filled buffer of the requested size. -/
def mkZeroBuf (n : Nat) : ByteSliceBuf := ⟨List.replicate n 0, 0⟩

/-- Embedding of `ByteSliceIO.IsEOF`. -/
def ByteSliceBuf.IsEOF (bs : ByteSliceBuf) : Bool :=
  bs.Buffer.length ≤ bs.Index

/-- Embedding of `ByteSliceIO.ReadAt`: returns the bytes copied into a target
of capacity `targetLength` from `offset`.  A zero-capacity target fails with
`membufio.ErrEmptyData`; an offset at or past the end fails with the `EOF`
error; otherwise `min targetLength (length - offset)` bytes are returned with
no error (a partial read reports no error, exactly as in Go). -/
def ByteSliceBuf.readAtM (bs : ByteSliceBuf) (targetLength offset : Nat) :
    Except GoErr (List Nat) :=
  if targetLength = 0 then .error .errEmptyDataM
  else if bs.Buffer.length ≤ offset then .error .errEOF
  else .ok ((bs.Buffer.drop offset).take (min targetLength (bs.Buffer.length - offset)))

/-- Embedding of `ByteSliceIO.Read`: `ReadAt` at the current index, advancing
the index by the number of bytes read.  The Go clamp branch (index past the
buffer after a successful read) is unreachable because `ReadAt` never returns
more bytes than remain, but it is kept for fidelity; its Go return value
`(bytesRead, EOF)` is treated by every caller in the sources as a failure, so
it is modelled as the `EOF` error. -/
def ByteSliceBuf.readM (bs : ByteSliceBuf) (targetLength : Nat) :
    ByteSliceBuf × Except GoErr (List Nat) :=
  match bs.readAtM targetLength bs.Index with
  | .error e => (bs, .error e)
  | .ok data =>
      if bs.Buffer.length < bs.Index + data.length then
        ({ bs with Index := bs.Buffer.length }, .error .errEOF)
      else
        ({ bs with Index := bs.Index + data.length }, .ok data)

/-- Embedding of `ByteSliceIO.WriteAt`: copies as much of `p` as fits at
`offset`, returning the byte count written and an error only for an empty
source.  Writing at or past the end writes zero bytes with no error, exactly
as in Go. -/
def ByteSliceBuf.writeAtM (bs : ByteSliceBuf) (p : List Nat) (offset : Nat) :
    ByteSliceBuf × Nat × Option GoErr :=
  if p.length = 0 then (bs, 0, some .errEmptyDataM)
  else if bs.Buffer.length ≤ offset then (bs, 0, none)
  else
    let k := min (bs.Buffer.length - offset) p.length
    ({ bs with Buffer := bs.Buffer.take offset ++ p.take k ++ bs.Buffer.drop (offset + k) },
      k, none)

/-- Embedding of `ByteSliceIO.Write`: `WriteAt` at the current index,
advancing (and clamping) the index on success. -/
def ByteSliceBuf.writeM (bs : ByteSliceBuf) (p : List Nat) :
    ByteSliceBuf × Nat × Option GoErr :=
  match bs.writeAtM p bs.Index with
  | (bs1, k, none) =>
      ({ bs1 with Index := min (bs.Index + k) bs1.Buffer.length }, k, none)
  | (bs1, k, some e) => (bs1, k, some e)

/-- Embedding of `ByteSliceIO.WriteByte`. -/
def ByteSliceBuf.writeByteM (bs : ByteSliceBuf) (v : Nat) :
    ByteSliceBuf × Option GoErr :=
  if bs.Buffer.length ≤ bs.Index then (bs, some .errIoEOF)
  else (⟨bs.Buffer.set bs.Index (v % 256), bs.Index + 1⟩, none)

/-- The three `whence` values accepted by `ByteSliceIO.Seek`. -/
inductive SeekWhence where
  | atStart
  | atEnd
  | current
  deriving DecidableEq, Repr

/-- Embedding of `ByteSliceIO.Seek`.  The returned position is unused by the
embedded callers, so only the new state and the error are kept: `none` for an
in-range seek, the `EOF` error for a seek to or past the end (the index is
still updated in that case, as in Go), and `ErrRange` for a negative target
(index unchanged). -/
def ByteSliceBuf.seekM (bs : ByteSliceBuf) (offset : Int) (whence : SeekWhence) :
    ByteSliceBuf × Option GoErr :=
  let start : Int :=
    match whence with
    | .atStart => 0
    | .atEnd => bs.Buffer.length
    | .current => bs.Index
  let offset' : Int :=
    match whence with
    | .atEnd => -offset
    | _ => offset
  if start + offset' < 0 then (bs, some .errRange)
  else
    let newIndex := (start + offset').toNat
    if bs.Buffer.length ≤ newIndex then
      ({ bs with Index := newIndex }, some .errEOF)
    else ({ bs with Index := newIndex }, none)

/-- Big-endian byte encoding of `v` into `w` bytes (the bytes written by
`encoding/binary.Write` with `binary.BigEndian` for an unsigned integer of
width `w`; only the low `8*w` bits of `v` contribute). -/
def beBytes : Nat → Nat → List Nat
  | 0, _ => []
  | w + 1, v => (v / 256 ^ w) % 256 :: beBytes w v

/-- Big-endian value of a byte list (the number read by `encoding/binary.Read`
with `binary.BigEndian`). -/
def beVal (l : List Nat) : Nat :=
  l.foldl (fun a b => a * 256 + b) 0

/-- Embedding of `encoding/binary.Read`'s byte-gathering step over a
`ByteSliceBuf`: `io.ReadFull` of `w` bytes.  A full read succeeds.  A partial
first read is followed by a second read of the exhausted buffer, which
returns membufio's own `EOF` error; that value is not `io.EOF`, so
`io.ReadFull` never rewrites it to `io.ErrUnexpectedEOF` and the membufio
error is surfaced unchanged — the same error the empty first read yields.
All call sites use `w ≥ 1`. -/
def binReadBytes (bs : ByteSliceBuf) (w : Nat) :
    ByteSliceBuf × Except GoErr (List Nat) :=
  match bs.readM w with
  | (bs1, .error e) => (bs1, .error e)
  | (bs1, .ok data) =>
      if data.length = w then (bs1, .ok data)
      else (bs1, .error .errEOF)

/-- Embedding of `encoding/binary.Write` to a `ByteSliceBuf`: writes the
already-encoded big-endian bytes and reports only the error (Go's
`binary.Write` discards the byte count, so a partial copy is silent). -/
def binWrite (bs : ByteSliceBuf) (p : List Nat) : ByteSliceBuf × Option GoErr :=
  match bs.writeM p with
  | (bs1, _, e) => (bs1, e)

/-! The type-code enumeration from `base.go`. -/

/-- Type code `DFUnknownType`. -/
def DFUnknownType : Nat := 0
/-- Type code `DFDocumentStart`. -/
def DFDocumentStart : Nat := 1
/-- Type code `DFDocumentEnd`. -/
def DFDocumentEnd : Nat := 2
/-- Type code `DFInt8Type`. -/
def DFInt8Type : Nat := 3
/-- Type code `DFUInt8Type`. -/
def DFUInt8Type : Nat := 4
/-- Type code `DFInt16Type`. -/
def DFInt16Type : Nat := 5
/-- Type code `DFUInt16Type`. -/
def DFUInt16Type : Nat := 6
/-- Type code `DFInt32Type`. -/
def DFInt32Type : Nat := 7
/-- Type code `DFUInt32Type`. -/
def DFUInt32Type : Nat := 8
/-- Type code `DFInt64Type`. -/
def DFInt64Type : Nat := 9
/-- Type code `DFUInt64Type`. -/
def DFUInt64Type : Nat := 10
/-- Type code `DFBoolType`. -/
def DFBoolType : Nat := 11
/-- Type code `DFFloat32Type`. -/
def DFFloat32Type : Nat := 12
/-- Type code `DFFloat64Type`. -/
def DFFloat64Type : Nat := 13
/-- Type code `DFStringType`. -/
def DFStringType : Nat := 14
/-- Type code `DFBinaryType`. -/
def DFBinaryType : Nat := 15
/-- Type code `DFHugeStringType`. -/
def DFHugeStringType : Nat := 16
/-- Type code `DFHugeBinaryType`. -/
def DFHugeBinaryType : Nat := 17
/-- Type code `DFMapType`. -/
def DFMapType : Nat := 18
/-- Type code `DFListType`. -/
def DFListType : Nat := 19
/-- Type code `DFLargeMapType`. -/
def DFLargeMapType : Nat := 20
/-- Type code `DFLargeListType`. -/
def DFLargeListType : Nat := 21
/-- Type code `DFUpperBound`. -/
def DFUpperBound : Nat := 22

/-- Embedding of `isTypeCodeValid`. -/
def isTypeCodeValid (typecode : Nat) : Bool :=
  typecode < DFUpperBound && 0 < typecode

/-- Embedding of `sizeSegmentSize`: the byte width of a type's size field. -/
def sizeSegmentSize (typeCode : Nat) : Nat :=
  if typeCode = DFStringType ∨ typeCode = DFBinaryType then 2
  else if typeCode = DFHugeStringType ∨ typeCode = DFHugeBinaryType then 8
  else 0

/-- Embedding of `fixedSegmentSize`: the payload size of a fixed-size type, or
0 for variable / unknown types. -/
def fixedSegmentSize (typeCode : Nat) : Nat :=
  if typeCode = DFInt8Type ∨ typeCode = DFUInt8Type ∨ typeCode = DFBoolType ∨
      typeCode = DFDocumentStart then 1
  else if typeCode = DFInt16Type ∨ typeCode = DFUInt16Type ∨ typeCode = DFMapType ∨
      typeCode = DFListType then 2
  else if typeCode = DFInt32Type ∨ typeCode = DFUInt32Type ∨ typeCode = DFFloat32Type ∨
      typeCode = DFLargeMapType ∨ typeCode = DFLargeListType then 4
  else if typeCode = DFInt64Type ∨ typeCode = DFUInt64Type ∨ typeCode = DFFloat64Type ∨
      typeCode = DFDocumentEnd then 8
  else 0

/-- Embedding of the `Segment` structure: a type tag and a payload buffer.
The Go field `Type` is renamed `Typ` because `Type` is a Lean keyword. -/
structure Segment where
  Typ : Nat
  Value : List Nat
  deriving DecidableEq, Repr

/-- Embedding of `Segment.GetSize`: the serialized size of the segment. -/
def Segment.GetSize (seg : Segment) : Nat :=
  let intSize := fixedSegmentSize seg.Typ
  if intSize ≠ 0 then intSize + 1
  else seg.Value.length + sizeSegmentSize seg.Typ + 1

/-- Embedding of `Segment.Read` over the repository's in-memory reader: reads
the tag octet, then — for a variable class — the size field, then the
payload.  The payload length is computed in the source as
`(uint64(sizeWriter[0]) << 8) + uint64(sizeWriter[1])`, i.e. from the first
two bytes of the size field regardless of the field's width; that expression
is translated verbatim here. -/
def Segment.Read (bs : ByteSliceBuf) : ByteSliceBuf × Except GoErr Segment :=
  match bs.readM 1 with
  | (bs1, .error e) => (bs1, .error e)
  | (bs1, .ok tdata) =>
    if tdata.length ≠ 1 then (bs1, .error .errIo)
    else
      let t := tdata.headD 0
      if ¬ isTypeCodeValid t then (bs1, .error .errInvalidSegment)
      else
        let sizeSize := sizeSegmentSize t
        if sizeSize ≠ 0 then
          match bs1.readM sizeSize with
          | (bs2, .error e) => (bs2, .error e)
          | (bs2, .ok sdata) =>
            if sdata.length ≠ sizeSize then (bs2, .error .errIo)
            else
              let payloadSize := sdata.getD 0 0 * 256 + sdata.getD 1 0
              match bs2.readM payloadSize with
              | (bs3, .error e) => (bs3, .error e)
              | (bs3, .ok pdata) =>
                if pdata.length ≠ payloadSize then (bs3, .error .errSegmentSize)
                else (bs3, .ok ⟨t, pdata⟩)
        else
          let payloadSize := fixedSegmentSize t
          match bs1.readM payloadSize with
          | (bs3, .error e) => (bs3, .error e)
          | (bs3, .ok pdata) =>
            if pdata.length ≠ payloadSize then (bs3, .error .errSegmentSize)
            else (bs3, .ok ⟨t, pdata⟩)

/-- Embedding of `WriteSegment`: writes the tag octet, then — for a variable
class — the size field, then the payload.  The source validates the size-field
write with `if bytesWritten != 2`, a constant that is translated verbatim.
The size field bytes are exactly what `binary.Write` places in the
`sizeSize`-byte scratch buffer: the big-endian bytes of the payload length
truncated to the field width. -/
def WriteSegment (bs : ByteSliceBuf) (fieldType : Nat) (fieldValue : List Nat) :
    ByteSliceBuf × Option GoErr :=
  let payloadSize := fieldValue.length
  match bs.writeM [fieldType % 256] with
  | (bs1, _, some e) => (bs1, some e)
  | (bs1, n1, none) =>
    if n1 ≠ 1 then (bs1, some .errIo)
    else
      let sizeSize := sizeSegmentSize fieldType
      if sizeSize ≠ 0 then
        match bs1.writeM (beBytes sizeSize payloadSize) with
        | (bs2, _, some e) => (bs2, some e)
        | (bs2, n2, none) =>
          if n2 ≠ 2 then (bs2, some .errIo)
          else
            match bs2.writeM fieldValue with
            | (bs3, _, some e) => (bs3, some e)
            | (bs3, n3, none) =>
              if n3 ≠ payloadSize then (bs3, some .errNetworkError) else (bs3, none)
      else
        match bs1.writeM fieldValue with
        | (bs3, _, some e) => (bs3, some e)
        | (bs3, n3, none) =>
          if n3 ≠ payloadSize then (bs3, some .errNetworkError) else (bs3, none)

/-- Embedding of `Segment.Write`: a wrapper around `WriteSegment`. -/
def Segment.Write (seg : Segment) (bs : ByteSliceBuf) : ByteSliceBuf × Option GoErr :=
  WriteSegment bs seg.Typ seg.Value

/-- Two's-complement reinterpretation of a `w`-byte unsigned big-endian value,
as performed when `binary.Read` targets a signed integer type. -/
def toSigned (w v : Nat) : Int :=
  if v < 2 ^ (8 * w - 1) then (v : Int) else (v : Int) - 2 ^ (8 * w)

/-- Big-endian two's-complement bytes of a signed value of byte width `w`, as
written by `binary.Write` for a signed integer type. -/
def intBytes (w : Nat) (v : Int) : List Nat :=
  beBytes w (v % (2 ^ (8 * w) : Nat)).toNat

/-- Embedding of `Segment.GetDocStart`. -/
def Segment.GetDocStart (seg : Segment) : Except GoErr Nat :=
  if seg.Typ ≠ DFDocumentStart then .error .errTypeError
  else if seg.Value.length ≠ 1 then .error .errSize
  else .ok (seg.Value.headD 0)

/-- Embedding of `Segment.GetDocEnd`: tag check, then a big-endian 64-bit read
from the payload via the in-memory reader. -/
def Segment.GetDocEnd (seg : Segment) : Except GoErr Nat :=
  if seg.Typ ≠ DFDocumentEnd then .error .errTypeError
  else
    match binReadBytes (mkBuf seg.Value) 8 with
    | (_, .error e) => .error e
    | (_, .ok d) => .ok (beVal d)

/-- Embedding of `Segment.GetInt8`. -/
def Segment.GetInt8 (seg : Segment) : Except GoErr Int :=
  if seg.Typ ≠ DFInt8Type then .error .errTypeError
  else if seg.Value.length ≠ 1 then .error .errSize
  else .ok (toSigned 1 (seg.Value.headD 0))

/-- Embedding of `Segment.GetUInt8`. -/
def Segment.GetUInt8 (seg : Segment) : Except GoErr Nat :=
  if seg.Typ ≠ DFUInt8Type then .error .errTypeError
  else if seg.Value.length ≠ 1 then .error .errSize
  else .ok (seg.Value.headD 0)

/-- Embedding of `Segment.GetInt16`. -/
def Segment.GetInt16 (seg : Segment) : Except GoErr Int :=
  if seg.Typ ≠ DFInt16Type then .error .errTypeError
  else
    match binReadBytes (mkBuf seg.Value) 2 with
    | (_, .error e) => .error e
    | (_, .ok d) => .ok (toSigned 2 (beVal d))

/-- Embedding of `Segment.GetUInt16`. -/
def Segment.GetUInt16 (seg : Segment) : Except GoErr Nat :=
  if seg.Typ ≠ DFUInt16Type then .error .errTypeError
  else
    match binReadBytes (mkBuf seg.Value) 2 with
    | (_, .error e) => .error e
    | (_, .ok d) => .ok (beVal d)

/-- Embedding of `Segment.GetInt32`. -/
def Segment.GetInt32 (seg : Segment) : Except GoErr Int :=
  if seg.Typ ≠ DFInt32Type then .error .errTypeError
  else
    match binReadBytes (mkBuf seg.Value) 4 with
    | (_, .error e) => .error e
    | (_, .ok d) => .ok (toSigned 4 (beVal d))

/-- Embedding of `Segment.GetUInt32`. -/
def Segment.GetUInt32 (seg : Segment) : Except GoErr Nat :=
  if seg.Typ ≠ DFUInt32Type then .error .errTypeError
  else
    match binReadBytes (mkBuf seg.Value) 4 with
    | (_, .error e) => .error e
    | (_, .ok d) => .ok (beVal d)

/-- Embedding of `Segment.GetInt64`. -/
def Segment.GetInt64 (seg : Segment) : Except GoErr Int :=
  if seg.Typ ≠ DFInt64Type then .error .errTypeError
  else
    match binReadBytes (mkBuf seg.Value) 8 with
    | (_, .error e) => .error e
    | (_, .ok d) => .ok (toSigned 8 (beVal d))

/-- Embedding of `Segment.GetUInt64`. -/
def Segment.GetUInt64 (seg : Segment) : Except GoErr Nat :=
  if seg.Typ ≠ DFUInt64Type then .error .errTypeError
  else
    match binReadBytes (mkBuf seg.Value) 8 with
    | (_, .error e) => .error e
    | (_, .ok d) => .ok (beVal d)

/-- Embedding of `Segment.GetBool`. -/
def Segment.GetBool (seg : Segment) : Except GoErr Bool :=
  if seg.Typ ≠ DFBoolType then .error .errTypeError
  else if seg.Value.length ≠ 1 then .error .errSize
  else .ok (seg.Value.headD 0 != 0)

/-- Embedding of `Segment.GetFloat32`.  The result is the raw big-endian
IEEE-754 bit pattern of the payload; the claims verified here only concern the
tag discipline, never the floating-point interpretation of the bits. -/
def Segment.GetFloat32 (seg : Segment) : Except GoErr Nat :=
  if seg.Typ ≠ DFFloat32Type then .error .errTypeError
  else
    match binReadBytes (mkBuf seg.Value) 4 with
    | (_, .error e) => .error e
    | (_, .ok d) => .ok (beVal d)

/-- Embedding of `Segment.GetFloat64`, with the same bit-pattern convention as
`Segment.GetFloat32`. -/
def Segment.GetFloat64 (seg : Segment) : Except GoErr Nat :=
  if seg.Typ ≠ DFFloat64Type then .error .errTypeError
  else
    match binReadBytes (mkBuf seg.Value) 8 with
    | (_, .error e) => .error e
    | (_, .ok d) => .ok (beVal d)

/-- Embedding of `Segment.GetString`: the source accepts both the regular and
the huge string tag and returns the payload unchanged. -/
def Segment.GetString (seg : Segment) : Except GoErr (List Nat) :=
  if seg.Typ ≠ DFStringType ∧ seg.Typ ≠ DFHugeStringType then .error .errTypeError
  else .ok seg.Value

/-- Embedding of `Segment.GetBinary`: accepts both binary tags. -/
def Segment.GetBinary (seg : Segment) : Except GoErr (List Nat) :=
  if seg.Typ ≠ DFBinaryType ∧ seg.Typ ≠ DFHugeBinaryType then .error .errTypeError
  else .ok seg.Value

/-- Embedding of `Segment.GetMapIndex`: a 16-bit read for the regular map tag,
a 64-bit read for the large map tag, a type error otherwise. -/
def Segment.GetMapIndex (seg : Segment) : Except GoErr Nat :=
  if seg.Typ = DFMapType then
    match binReadBytes (mkBuf seg.Value) 2 with
    | (_, .error e) => .error e
    | (_, .ok d) => .ok (beVal d)
  else if seg.Typ = DFLargeMapType then
    match binReadBytes (mkBuf seg.Value) 8 with
    | (_, .error e) => .error e
    | (_, .ok d) => .ok (beVal d)
  else .error .errTypeError

/-- Embedding of `Segment.GetListIndex`. -/
def Segment.GetListIndex (seg : Segment) : Except GoErr Nat :=
  if seg.Typ = DFListType then
    match binReadBytes (mkBuf seg.Value) 2 with
    | (_, .error e) => .error e
    | (_, .ok d) => .ok (beVal d)
  else if seg.Typ = DFLargeListType then
    match binReadBytes (mkBuf seg.Value) 8 with
    | (_, .error e) => .error e
    | (_, .ok d) => .ok (beVal d)
  else .error .errTypeError

/-! Setters.  Each Go setter reuses the existing payload buffer when its
length already matches and reallocates otherwise; in both cases the whole
buffer is then overwritten (by `copy` or `binary.Write` of exactly the buffer
length), so the resulting value is independent of the previous contents and
the setters are embedded functionally.  The two container-index setters are
the exception — there `binary.Write` can copy only a prefix of its encoding —
and they are embedded through `writeM` below. -/

/-- Embedding of `Segment.SetDocEnd`. -/
def Segment.SetDocEnd (_seg : Segment) (segcount : Nat) : Segment :=
  ⟨DFDocumentEnd, beBytes 8 segcount⟩

/-- Embedding of `Segment.SetUInt16`. -/
def Segment.SetUInt16 (_seg : Segment) (value : Nat) : Segment :=
  ⟨DFUInt16Type, beBytes 2 value⟩

/-- Embedding of `Segment.SetUInt64`. -/
def Segment.SetUInt64 (_seg : Segment) (value : Nat) : Segment :=
  ⟨DFUInt64Type, beBytes 8 value⟩

/-- Embedding of `Segment.SetInt64`. -/
def Segment.SetInt64 (_seg : Segment) (value : Int) : Segment :=
  ⟨DFInt64Type, intBytes 8 value⟩

/-- Embedding of `Segment.SetString`: promotes to the huge variant above
65535 bytes and stores a copy of the value. -/
def Segment.SetString (_seg : Segment) (value : List Nat) : Segment :=
  ⟨if 65535 < value.length then DFHugeStringType else DFStringType, value⟩

/-- Embedding of `Segment.SetBinary`. -/
def Segment.SetBinary (_seg : Segment) (value : List Nat) : Segment :=
  ⟨if 65535 < value.length then DFHugeBinaryType else DFBinaryType, value⟩

/-- Embedding of the `SegmentMap` type.  A Go map is embedded as an
association list.  The list order records one possible iteration order of the
Go map — Go's `range` order over a map is unspecified and deliberately
randomized, so two association lists that are permutations of each other
embed the same Go map value.  A statement that depends on a particular
iteration order therefore holds of the program only if it holds for every
permutation, and order-dependent outputs are treated below by exhibiting the
possible orders explicitly. -/
abbrev SegmentMap := List (List Nat × Segment)

/-- Embedding of the `SegmentList` type. -/
abbrev SegmentList := List Segment

/-- Assignment `sm[k] = v` on the association-list embedding of a Go map:
replaces the value of an existing key in place, appends a new key. -/
def assocSet : SegmentMap → List Nat → Segment → SegmentMap
  | [], k, v => [(k, v)]
  | (k0, v0) :: rest, k, v =>
      if k0 = k then (k0, v) :: rest else (k0, v0) :: assocSet rest k v

/-- Embedding of `Segment.SetMapIndex`: chooses the large tag above 65535
entries, sizes the payload buffer with `fixedSegmentSize` of the chosen tag
(4 bytes for the large variant), and then `binary.Write`s the count — 64 bits
for the large variant — into that buffer through the in-memory writer, which
silently drops whatever does not fit. -/
def Segment.SetMapIndex (seg : Segment) (value : SegmentMap) : Segment :=
  let t := if 65535 < value.length then DFLargeMapType else DFMapType
  let valueLen := fixedSegmentSize t
  let buf0 := if seg.Value.length ≠ valueLen then List.replicate valueLen 0 else seg.Value
  let countBytes := if t = DFLargeMapType then beBytes 8 value.length
    else beBytes 2 value.length
  ⟨t, ((mkBuf buf0).writeM countBytes).1.Buffer⟩

/-- Embedding of `Segment.SetListIndex`, with the same structure as
`Segment.SetMapIndex`. -/
def Segment.SetListIndex (seg : Segment) (value : SegmentList) : Segment :=
  let t := if 65535 < value.length then DFLargeListType else DFListType
  let valueLen := fixedSegmentSize t
  let buf0 := if seg.Value.length ≠ valueLen then List.replicate valueLen 0 else seg.Value
  let countBytes := if t = DFLargeListType then beBytes 8 value.length
    else beBytes 2 value.length
  ⟨t, ((mkBuf buf0).writeM countBytes).1.Buffer⟩

/-- Embedding of `UnflattenSegment`: one `Segment.Read` from the start of the
byte slice. -/
def UnflattenSegment (p : List Nat) : Except GoErr Segment :=
  (Segment.Read (mkBuf p)).2

/-- Embedding of `FlattenSegment`: rejects an empty payload, allocates a
buffer of the exact flattened size, writes the tag byte, then switches on the
size-field width — the `switch` has cases only for widths 2, 4 and 8, so every
fixed-size tag (width 0) falls to the `default` branch and fails with
`ErrSegmentSize`. -/
def FlattenSegment (fieldType : Nat) (fieldValue : List Nat) :
    Except GoErr (List Nat) :=
  if fieldValue.length = 0 then .error .errEmptyData
  else
    let sizeSize := sizeSegmentSize fieldType
    let buf := mkZeroBuf (fieldValue.length + sizeSize + 1)
    let buf1 := (buf.writeByteM fieldType).1
    if sizeSize = 2 ∨ sizeSize = 4 ∨ sizeSize = 8 then
      let buf2 := (binWrite buf1 (beBytes sizeSize fieldValue.length)).1
      let buf3 := (buf2.writeM fieldValue).1
      .ok buf3.Buffer
    else .error .errSegmentSize

/-- The loop body of `CountSegments`, with an explicit fuel argument; each
iteration strictly advances the stream index, so the fuel
`p.length + 1` supplied by `CountSegments` can never run out before the Go
loop exits (the fuel-exhausted branch is unreachable). -/
def countLoop : Nat → ByteSliceBuf → Nat → Except GoErr Nat
  | 0, _, acc => .ok acc
  | fuel + 1, bs, acc =>
    match bs.readM 1 with
    | (_, .error _) => .error .errInvalidSegment
    | (bs1, .ok tdata) =>
      if tdata.length ≠ 1 ∨ ¬ isTypeCodeValid (tdata.headD 0) then
        .error .errInvalidSegment
      else
        let t := tdata.headD 0
        let sizeSize := sizeSegmentSize t
        match
          ((if sizeSize = 0 then
            let payloadSize := fixedSegmentSize t
            if payloadSize = 0 then .error GoErr.errInvalidSegment
            else .ok (bs1, payloadSize)
          else if sizeSize = 2 ∨ sizeSize = 4 ∨ sizeSize = 8 then
            match binReadBytes bs1 sizeSize with
            | (_, .error _) => .error GoErr.errInvalidSegment
            | (bs2, .ok d) => .ok (bs2, beVal d)
          else .error GoErr.errInvalidSegment) :
            Except GoErr (ByteSliceBuf × Nat)) with
        | .error e => .error e
        | .ok (bs2, payloadSize) =>
          if payloadSize = 0 then .error .errInvalidSegment
          else
            match bs2.seekM (payloadSize : Int) .current with
            | (_, some e) => if e = .errEOF then .ok (acc + 1) else .error e
            | (bs3, none) =>
              if bs3.IsEOF then .ok (acc + 1) else countLoop fuel bs3 (acc + 1)

/-- Embedding of `CountSegments`: buffers shorter than 4 bytes are reported as
holding zero segments with no error; otherwise the scan loop runs. -/
def CountSegments (p : List Nat) : Except GoErr Nat :=
  if p.length < 4 then .ok 0
  else countLoop (p.length + 1) (mkBuf p) 0

/-- The key/value pair loop of `SegmentMap.Read`: reads `n` pairs, failing
with `ErrInvalidKey` when a key segment's tag is not the plain string tag, and
overwriting existing keys. -/
def mapReadLoop : Nat → SegmentMap → ByteSliceBuf → ByteSliceBuf × Except GoErr SegmentMap
  | 0, sm, bs => (bs, .ok sm)
  | n + 1, sm, bs =>
    match Segment.Read bs with
    | (bs1, .error e) => (bs1, .error e)
    | (bs1, .ok kseg) =>
      if kseg.Typ ≠ DFStringType then (bs1, .error .errInvalidKey)
      else
        match Segment.Read bs1 with
        | (bs2, .error e) => (bs2, .error e)
        | (bs2, .ok vseg) => mapReadLoop n (assocSet sm kseg.Value vseg) bs2

/-- Embedding of `SegmentMap.Read` over the in-memory reader: reads the index
segment, decodes the pair count with `GetMapIndex`, and reads that many
key/value pairs into the map. -/
def SegmentMap.ReadM (sm : SegmentMap) (bs : ByteSliceBuf) :
    ByteSliceBuf × Except GoErr SegmentMap :=
  match Segment.Read bs with
  | (bs1, .error e) => (bs1, .error e)
  | (bs1, .ok cseg) =>
    match cseg.GetMapIndex with
    | .error e => (bs1, .error e)
    | .ok pairCount =>
      if pairCount = 0 then (bs1, .ok sm)
      else mapReadLoop pairCount sm bs1

/-- The per-entry loop of `SegmentMap.Write`: each key is re-encoded with
`SetString` and written, then the value segment is written. -/
def mapWriteLoop : SegmentMap → ByteSliceBuf → ByteSliceBuf × Option GoErr
  | [], bs => (bs, none)
  | (k, v) :: rest, bs =>
    let keySegment := Segment.SetString ⟨0, []⟩ k
    match WriteSegment bs keySegment.Typ keySegment.Value with
    | (bs1, some e) => (bs1, some e)
    | (bs1, none) =>
      match Segment.Write v bs1 with
      | (bs2, some e) => (bs2, some e)
      | (bs2, none) => mapWriteLoop rest bs2

/-- Embedding of `SegmentMap.Write`: builds the index segment — `SetUInt64`
then the large map tag above 65535 entries, `SetUInt16` then the regular map
tag otherwise — writes it, and then writes each key/value pair in the
association list's order.  The Go `for k, v := range sm` loop guarantees no
particular order, so this emits the output of one possible execution; the
output for any other execution is obtained by permuting the list first. -/
def SegmentMap.Write (sm : SegmentMap) (bs : ByteSliceBuf) :
    ByteSliceBuf × Option GoErr :=
  let countSegment :=
    if 65535 < sm.length then
      { Segment.SetUInt64 ⟨0, []⟩ sm.length with Typ := DFLargeMapType }
    else
      { Segment.SetUInt16 ⟨0, []⟩ sm.length with Typ := DFMapType }
  match Segment.Write countSegment bs with
  | (bs1, some e) => (bs1, some e)
  | (bs1, none) =>
    if sm.length = 0 then (bs1, none)
    else mapWriteLoop sm bs1

/-- Embedding of `SegmentMap.GetSize`: 3 bytes for an empty map, otherwise
3 bytes per key header plus key length plus each value's serialized size,
plus 3 for the index segment. -/
def SegmentMap.GetSize (sm : SegmentMap) : Nat :=
  if sm.length = 0 then 3
  else (sm.foldl (fun acc kv => acc + 3 + kv.1.length + kv.2.GetSize) 0) + 3

/-- Embedding of the `WireMsg` structure: a command code (a Go string,
embedded as its bytes) and the attachment map. -/
structure WireMsg where
  MsgCode : List Nat
  Attachments : SegmentMap
  deriving DecidableEq, Repr

/-- Embedding of `NewWireMsg`. -/
def NewWireMsg (command : List Nat) : WireMsg := ⟨command, []⟩

/-- Embedding of `WireMsg.AttachString`. -/
def WireMsg.AttachString (wm : WireMsg) (name value : List Nat) : WireMsg :=
  { wm with Attachments := assocSet wm.Attachments name (Segment.SetString ⟨0, []⟩ value) }

/-- Embedding of `WireMsg.AttachInt64`. -/
def WireMsg.AttachInt64 (wm : WireMsg) (name : List Nat) (value : Int) : WireMsg :=
  { wm with Attachments := assocSet wm.Attachments name (Segment.SetInt64 ⟨0, []⟩ value) }

/-- Embedding of `WireMsg.GetSize`: 2 bytes for the start marker, 3 or 9 plus
the code length for the command-code segment, the attachment map size, and 9
for the end marker. -/
def WireMsg.GetSize (wm : WireMsg) : Nat :=
  let codeSize := if wm.MsgCode.length < 65535 then 3 + wm.MsgCode.length
    else 9 + wm.MsgCode.length
  2 + codeSize + SegmentMap.GetSize wm.Attachments + 9

/-- Embedding of `WireMsg.Flatten`: allocates a buffer of `GetSize` bytes,
writes the start marker (version 1), the command-code string segment, the
attachment map, and finally the end marker carrying
`2 * attachmentCount + 2`. -/
def WireMsg.Flatten (wm : WireMsg) : Except GoErr (List Nat) :=
  let bs := mkZeroBuf wm.GetSize
  match WriteSegment bs DFDocumentStart [1] with
  | (_, some e) => .error e
  | (bs1, none) =>
    match WriteSegment bs1 DFStringType wm.MsgCode with
    | (_, some e) => .error e
    | (bs2, none) =>
      match SegmentMap.Write wm.Attachments bs2 with
      | (_, some e) => .error e
      | (bs3, none) =>
        let docEnd := Segment.SetDocEnd ⟨0, []⟩ (wm.Attachments.length * 2 + 2)
        match Segment.Write docEnd bs3 with
        | (_, some e) => .error e
        | (bs4, none) => .ok bs4.Buffer

/-- Embedding of `WireMsg.Read` over the in-memory reader: start marker,
command-code string segment (whose payload becomes the message code), the
attachment map, then the end marker, whose count is compared against
`2 * parsedAttachmentCount + 2`; a disagreement fails with `ErrSize`. -/
def WireMsg.ReadM (bs : ByteSliceBuf) : ByteSliceBuf × Except GoErr WireMsg :=
  match Segment.Read bs with
  | (bs1, .error e) => (bs1, .error e)
  | (bs1, .ok s1) =>
    if s1.Typ ≠ DFDocumentStart then (bs1, .error .errInvalidMsg)
    else
      match Segment.Read bs1 with
      | (bs2, .error e) => (bs2, .error e)
      | (bs2, .ok s2) =>
        if s2.Typ ≠ DFStringType then (bs2, .error .errTypeError)
        else
          match SegmentMap.ReadM [] bs2 with
          | (bs3, .error e) => (bs3, .error e)
          | (bs3, .ok atts) =>
            match Segment.Read bs3 with
            | (bs4, .error e) => (bs4, .error e)
            | (bs4, .ok s3) =>
              if s3.Typ ≠ DFDocumentEnd then (bs4, .error .errInvalidMsg)
              else
                match s3.GetDocEnd with
                | .error e => (bs4, .error e)
                | .ok segCount =>
                  if segCount ≠ atts.length * 2 + 2 then (bs4, .error .errSize)
                  else (bs4, .ok ⟨s2.Value, atts⟩)

/-- Embedding of `WireMsg.Unflatten`: a `Read` from the start of the byte
slice. -/
def WireMsg.Unflatten (data : List Nat) : Except GoErr WireMsg :=
  (WireMsg.ReadM (mkBuf data)).2

/-! Helper lemmas about the byte-level primitives. -/

theorem beBytes_length (w v : Nat) : (beBytes w v).length = w := by
  induction w generalizing v with
  | zero => simp [beBytes]
  | succ w ih => simp [beBytes, ih]

theorem beBytes_ne_nil (w v : Nat) (h : 0 < w) : beBytes w v ≠ [] := by
  intro hnil
  have := beBytes_length w v
  rw [hnil] at this
  simp at this
  omega

theorem beBytes_foldl (w v a : Nat) :
    (beBytes w v).foldl (fun x b => x * 256 + b) a = a * 256 ^ w + v % 256 ^ w := by
  induction w generalizing a with
  | zero => simp [beBytes, Nat.mod_one]
  | succ w ih =>
      rw [beBytes, List.foldl_cons, ih, pow_succ, Nat.mod_mul]
      ring

theorem beVal_beBytes (w v : Nat) : beVal (beBytes w v) = v % 256 ^ w := by
  simpa [beVal] using beBytes_foldl w v 0

theorem beBytes_take (w k v : Nat) :
    (beBytes (w + k) v).take w = beBytes w (v / 256 ^ k) := by
  induction w generalizing v with
  | zero => simp [beBytes]
  | succ w ih =>
      have harr : w + 1 + k = (w + k) + 1 := by omega
      rw [harr, beBytes, List.take_succ_cons, ih, beBytes]
      congr 2
      rw [Nat.div_div_eq_div_mul, ← pow_add, Nat.add_comm k w]

theorem readM_ok (bs : ByteSliceBuf) (n : Nat) (h0 : 0 < n)
    (h : bs.Index + n ≤ bs.Buffer.length) :
    bs.readM n = (⟨bs.Buffer, bs.Index + n⟩, .ok ((bs.Buffer.drop bs.Index).take n)) := by
  have hlt : bs.Index < bs.Buffer.length := by omega
  have hmin : min n (bs.Buffer.length - bs.Index) = n := by omega
  have hlen : ((bs.Buffer.drop bs.Index).take n).length = n := by
    simp [List.length_take, List.length_drop]
    omega
  simp only [ByteSliceBuf.readM, ByteSliceBuf.readAtM,
    if_neg (show ¬ n = 0 by omega),
    if_neg (show ¬ bs.Buffer.length ≤ bs.Index by omega), hmin, hlen]
  rw [if_neg (by omega)]

theorem readM_zero (bs : ByteSliceBuf) : bs.readM 0 = (bs, .error .errEmptyDataM) := by
  rw [ByteSliceBuf.readM, ByteSliceBuf.readAtM, if_pos rfl]

theorem writeM_ok (bs : ByteSliceBuf) (p : List Nat) (hp : p ≠ [])
    (h : bs.Index + p.length ≤ bs.Buffer.length) :
    bs.writeM p =
      (⟨bs.Buffer.take bs.Index ++ p ++ bs.Buffer.drop (bs.Index + p.length),
        bs.Index + p.length⟩, p.length, none) := by
  have hp0 : p.length ≠ 0 := by simpa using hp
  have hlt : bs.Index < bs.Buffer.length := by
    have := List.length_pos.mpr hp
    omega
  have hmin : min (bs.Buffer.length - bs.Index) p.length = p.length := by omega
  have hsplice :
      (bs.Buffer.take bs.Index ++ p ++ bs.Buffer.drop (bs.Index + p.length)).length =
        bs.Buffer.length := by
    simp [List.length_take, List.length_drop]
    omega
  simp only [ByteSliceBuf.writeM, ByteSliceBuf.writeAtM, if_neg hp0,
    if_neg (show ¬ bs.Buffer.length ≤ bs.Index by omega), hmin, List.take_length,
    hsplice]
  rw [min_eq_left h]

theorem readM_append_ok (xs ys : List Nat) (i n : Nat) (h0 : 0 < n)
    (h : i + n ≤ xs.length) :
    (ByteSliceBuf.mk (xs ++ ys) i).readM n =
      (⟨xs ++ ys, i + n⟩, .ok ((xs.drop i).take n)) := by
  rw [readM_ok ⟨xs ++ ys, i⟩ n h0 (by simp; omega)]
  congr 2
  rw [List.drop_append_eq_append_drop, List.take_append_eq_append_take]
  have h1 : n - (xs.drop i).length = 0 := by simp [List.length_drop]; omega
  have h2 : i - xs.length = 0 := by omega
  rw [h1, h2]
  simp

/-! Concrete data used by the claims: the command message from the
repository's round-trip scenario and a selection of crafted wire inputs. -/

/-- The bytes of the Go string literal used as the command code. -/
def strTestMsg : List Nat := [84, 101, 115, 116, 77, 115, 103]

/-- The bytes of the first attachment key. -/
def strTestString : List Nat := [116, 101, 115, 116, 83, 116, 114, 105, 110, 103]

/-- The bytes of the second attachment key. -/
def strTestInt : List Nat := [116, 101, 115, 116, 73, 110, 116]

/-- The bytes of the first attachment's string value. -/
def strAbcdef : List Nat := [97, 98, 99, 100, 101, 102]

/-- The command message of the concrete scenario: code `TestMsg`, a string
attachment and a 64-bit signed attachment, built through the embedded
attach operations. -/
def testMsgWire : WireMsg :=
  ((NewWireMsg strTestMsg).AttachString strTestString strAbcdef).AttachInt64
    strTestInt 42

/-- The 65-byte literal wire form of `testMsgWire` given in the specification
and in the repository's own test. -/
def testMsgBytes : List Nat :=
  [1, 1,
   14, 0, 7, 84, 101, 115, 116, 77, 115, 103,
   18, 0, 2,
   14, 0, 10, 116, 101, 115, 116, 83, 116, 114, 105, 110, 103,
   14, 0, 6, 97, 98, 99, 100, 101, 102,
   14, 0, 7, 116, 101, 115, 116, 73, 110, 116,
   9, 0, 0, 0, 0, 0, 0, 0, 42,
   2, 0, 0, 0, 0, 0, 0, 0, 6]

/-- The first 56 bytes of `testMsgBytes`: everything before the end marker. -/
def envHead56 : List Nat :=
  [1, 1,
   14, 0, 7, 84, 101, 115, 116, 77, 115, 103,
   18, 0, 2,
   14, 0, 10, 116, 101, 115, 116, 83, 116, 114, 105, 110, 103,
   14, 0, 6, 97, 98, 99, 100, 101, 102,
   14, 0, 7, 116, 101, 115, 116, 73, 110, 116,
   9, 0, 0, 0, 0, 0, 0, 0, 42]

/-- The envelope of the concrete scenario with an arbitrary end-marker count
`c` in place of the correct count 6. -/
def envWithEnd (c : Nat) : List Nat := envHead56 ++ 2 :: beBytes 8 c

/-- A wire-correct huge-string segment: tag 16, 8-byte big-endian size field
holding 3, then the 3 payload bytes `abc`. -/
def hugeSegBytes : List Nat := [16, 0, 0, 0, 0, 0, 0, 0, 3, 97, 98, 99]

/-- C1.  The claim states that `Segment.Read` obtains the payload length of a
huge-string/huge-binary segment by interpreting the entire 8-byte size field
as a big-endian unsigned integer and then reads exactly that many payload
bytes.  The code instead computes the length from only the first two bytes of
the size field.  On a wire-correct huge-string segment with size field 3 and
payload `abc` the decoder therefore computes length 0, attempts a zero-byte
read, and fails with the reader's empty-data error — while `CountSegments`,
which does parse the full 8-byte field, accepts the same bytes as one
segment.  A size field beginning `00 01` shows the two-byte interpretation
directly: the decoder reads exactly 1 payload byte. -/
theorem c1_huge_size_field_misparsed :
    (Segment.Read (mkBuf hugeSegBytes)).2 = .error .errEmptyDataM ∧
    CountSegments hugeSegBytes = .ok 1 ∧
    (Segment.Read (mkBuf [16, 0, 1, 0, 0, 0, 0, 0, 0, 97])).2 =
      .ok ⟨DFHugeStringType, [97]⟩ := by
  decide

/-- The same command message with the attachments attached in the opposite
order.  The Go map holding the attachments is identical (same key/value
pairs); only the unspecified iteration order differs, so this embeds the
other possible execution of `Flatten` on the same message. -/
def testMsgWireSwapped : WireMsg :=
  ((NewWireMsg strTestMsg).AttachInt64 strTestInt 42).AttachString
    strTestString strAbcdef

/-- The 65-byte wire form `Flatten` produces when the map iterates with the
`testInt` pair first. -/
def testMsgBytesSwapped : List Nat :=
  [1, 1,
   14, 0, 7, 84, 101, 115, 116, 77, 115, 103,
   18, 0, 2,
   14, 0, 7, 116, 101, 115, 116, 73, 110, 116,
   9, 0, 0, 0, 0, 0, 0, 0, 42,
   14, 0, 10, 116, 101, 115, 116, 83, 116, 114, 105, 110, 103,
   14, 0, 6, 97, 98, 99, 100, 101, 102,
   2, 0, 0, 0, 0, 0, 0, 0, 6]

/-- C4 counterexample.  The serialized byte sequence of the two-attachment
command message is not determined by the message: the attachment map of
`testMsgWireSwapped` is a permutation of `testMsgWire`'s — the same Go map,
whose `range` order is unspecified — yet flattening under that iteration
order produces a 65-byte sequence different from the literal sequence the
claim states, so `Flatten` does not guarantee that exact sequence. -/
theorem c4_counterexample_order_dependent_bytes :
    testMsgWireSwapped.MsgCode = testMsgWire.MsgCode ∧
    List.Perm testMsgWireSwapped.Attachments testMsgWire.Attachments ∧
    testMsgWireSwapped.Flatten = .ok testMsgBytesSwapped ∧
    testMsgBytesSwapped ≠ testMsgBytes := by
  decide

/-- C4 (amended).  The concrete scenario: the command message with code
`TestMsg`, attachments `testString → abcdef` and `testInt → 42`, has
`GetSize` 65 and flattens to exactly 65 bytes — equal to the size query —
under either iteration order of the attachment map.  The literal byte
sequence of the claim is the output for the insertion iteration order
(`testString` pair first); the only other possible order yields the same
segments with the two attachment pairs exchanged, and both encodings decode
back to the command code and the same attachment pairs. -/
theorem c4_concrete_scenario_amended :
    testMsgWire.GetSize = 65 ∧
    testMsgWireSwapped.GetSize = 65 ∧
    testMsgWire.Flatten = .ok testMsgBytes ∧
    testMsgBytes.length = 65 ∧
    testMsgWireSwapped.Flatten = .ok testMsgBytesSwapped ∧
    testMsgBytesSwapped.length = 65 ∧
    WireMsg.Unflatten testMsgBytes = .ok ⟨strTestMsg, testMsgWire.Attachments⟩ ∧
    WireMsg.Unflatten testMsgBytesSwapped =
      .ok ⟨strTestMsg, testMsgWireSwapped.Attachments⟩ := by
  decide

/-- C6 counterexample.  A string segment declaring a zero payload length is
not rejected by `Segment.Read` with the invalid-segment error claimed: the
read fails with the in-memory reader's empty-data error instead. -/
theorem c6_counterexample_read_error_kind :
    (Segment.Read (mkBuf [14, 0, 0, 0])).2 = .error .errEmptyDataM ∧
    GoErr.errEmptyDataM ≠ GoErr.errInvalidSegment := by
  decide

/-- C10.  Any buffer shorter than 4 bytes is reported by `CountSegments` as
holding zero segments with no error — including `0B 01`, which is a complete,
valid bool segment, as the decoder itself confirms. -/
theorem c10_short_buffer_counts_zero :
    (∀ p : List Nat, p.length < 4 → CountSegments p = .ok 0) ∧
    CountSegments [11, 1] = .ok 0 ∧
    (Segment.Read (mkBuf [11, 1])).2 = .ok ⟨DFBoolType, [1]⟩ := by
  refine ⟨fun p hp => ?_, by decide, by decide⟩
  rw [CountSegments, if_pos hp]

/-- Witness for C10 at the concrete two-byte bool segment. -/
theorem c10_short_buffer_counts_zero_witness :
    CountSegments [11, 1] = .ok 0 :=
  c10_short_buffer_counts_zero.1 [11, 1] (by decide)

/-- C9.  `FlattenSegment` can only encode the variable-length classes: for
every type code whose size-field width is zero (all fixed scalars, markers
and container index tags) and any non-empty payload, the `switch` on the
size-field width falls through to its default branch and the call fails with
the invalid-size error `ErrSegmentSize`. -/
theorem c9_flatten_rejects_fixed_tags :
    ∀ (t : Nat) (v : List Nat), sizeSegmentSize t = 0 → v ≠ [] →
      FlattenSegment t v = .error .errSegmentSize := by
  intro t v hs hv
  have hv0 : ¬ v.length = 0 := by simpa using hv
  simp only [FlattenSegment, if_neg hv0, hs]
  norm_num

/-- Witness for C9 at an int8 tag and at a map index tag. -/
theorem c9_flatten_rejects_fixed_tags_witness :
    FlattenSegment DFInt8Type [5] = .error .errSegmentSize ∧
    FlattenSegment DFMapType [0, 2] = .error .errSegmentSize :=
  ⟨c9_flatten_rejects_fixed_tags DFInt8Type [5] (by decide) (by decide),
   c9_flatten_rejects_fixed_tags DFMapType [0, 2] (by decide) (by decide)⟩

/-- C8 counterexample.  `GetString` does not require the stored tag to equal
the plain string tag exactly: a segment carrying the huge-string tag — a
different tag — is accepted and its payload returned rather than failing with
the type-mismatch error. -/
theorem c8_counterexample_getstring_huge :
    Segment.GetString ⟨DFHugeStringType, [97, 98, 99]⟩ = .ok [97, 98, 99] ∧
    DFHugeStringType ≠ DFStringType := by
  decide

/-- C6 (amended).  A declared payload length of zero is rejected by
`CountSegments` with the invalid-segment error, for every buffer beginning
with a string tag and a zero size field; `Segment.Read` on such input also
fails, but with the in-memory reader's empty-data error produced by the
zero-byte payload read, not with the invalid-segment error the claim
states. -/
theorem c6_zero_length_amended :
    (∀ (b : Nat) (rest : List Nat),
      CountSegments (14 :: 0 :: 0 :: b :: rest) = .error .errInvalidSegment) ∧
    (∀ rest : List Nat,
      (Segment.Read (mkBuf (14 :: 0 :: 0 :: rest))).2 = .error .errEmptyDataM) := by
  constructor
  · intro b rest
    rw [CountSegments, if_neg (by simp only [List.length_cons]; omega)]
    have hlen : (14 :: 0 :: 0 :: b :: rest).length + 1 = rest.length + 4 + 1 := by
      simp only [List.length_cons]
    rw [hlen]
    have h1 : (mkBuf (14 :: 0 :: 0 :: b :: rest)).readM 1 =
        (⟨14 :: 0 :: 0 :: b :: rest, 1⟩, .ok [14]) := by
      rw [mkBuf, readM_ok _ _ (by omega) (by simp only [List.length_cons]; omega)]
      simp
    have h2 : binReadBytes ⟨14 :: 0 :: 0 :: b :: rest, 1⟩ 2 =
        (⟨14 :: 0 :: 0 :: b :: rest, 3⟩, .ok [0, 0]) := by
      rw [binReadBytes, readM_ok _ _ (by omega) (by simp only [List.length_cons]; omega)]
      simp
    simp [countLoop, h1, h2, isTypeCodeValid, sizeSegmentSize, DFUpperBound,
      DFStringType, DFBinaryType, DFHugeStringType, DFHugeBinaryType, beVal]
  · intro rest
    have h1 : (mkBuf (14 :: 0 :: 0 :: rest)).readM 1 =
        (⟨14 :: 0 :: 0 :: rest, 1⟩, .ok [14]) := by
      rw [mkBuf, readM_ok _ _ (by omega) (by simp only [List.length_cons]; omega)]
      simp
    have h2 : (ByteSliceBuf.mk (14 :: 0 :: 0 :: rest) 1).readM 2 =
        (⟨14 :: 0 :: 0 :: rest, 3⟩, .ok [0, 0]) := by
      rw [readM_ok _ _ (by omega) (by simp only [List.length_cons]; omega)]
      simp
    simp [Segment.Read, h1, h2, readM_zero, isTypeCodeValid, sizeSegmentSize,
      DFUpperBound, DFStringType, DFBinaryType, DFHugeStringType, DFHugeBinaryType]

/-- Witness for C6's amended statement at a concrete input. -/
theorem c6_zero_length_amended_witness :
    CountSegments [14, 0, 0, 0] = .error .errInvalidSegment ∧
    (Segment.Read (mkBuf [14, 0, 0, 0])).2 = .error .errEmptyDataM :=
  ⟨c6_zero_length_amended.1 0 [], c6_zero_length_amended.2 [0]⟩

/-- C8 (amended).  The scalar and marker accessors require exact equality
with their single expected tag and fail with the type-mismatch error on any
other tag; the string, binary, map-index and list-index accessors each accept
exactly their two tags (regular and huge/large variant) and fail with the
type-mismatch error on any other tag — in particular `GetString` returns the
payload of a huge-string segment rather than failing. -/
theorem c8_amended_tag_discipline :
    (∀ seg : Segment, seg.Typ ≠ DFDocumentStart → seg.GetDocStart = .error .errTypeError) ∧
    (∀ seg : Segment, seg.Typ ≠ DFDocumentEnd → seg.GetDocEnd = .error .errTypeError) ∧
    (∀ seg : Segment, seg.Typ ≠ DFInt8Type → seg.GetInt8 = .error .errTypeError) ∧
    (∀ seg : Segment, seg.Typ ≠ DFUInt8Type → seg.GetUInt8 = .error .errTypeError) ∧
    (∀ seg : Segment, seg.Typ ≠ DFInt16Type → seg.GetInt16 = .error .errTypeError) ∧
    (∀ seg : Segment, seg.Typ ≠ DFUInt16Type → seg.GetUInt16 = .error .errTypeError) ∧
    (∀ seg : Segment, seg.Typ ≠ DFInt32Type → seg.GetInt32 = .error .errTypeError) ∧
    (∀ seg : Segment, seg.Typ ≠ DFUInt32Type → seg.GetUInt32 = .error .errTypeError) ∧
    (∀ seg : Segment, seg.Typ ≠ DFInt64Type → seg.GetInt64 = .error .errTypeError) ∧
    (∀ seg : Segment, seg.Typ ≠ DFUInt64Type → seg.GetUInt64 = .error .errTypeError) ∧
    (∀ seg : Segment, seg.Typ ≠ DFBoolType → seg.GetBool = .error .errTypeError) ∧
    (∀ seg : Segment, seg.Typ ≠ DFFloat32Type → seg.GetFloat32 = .error .errTypeError) ∧
    (∀ seg : Segment, seg.Typ ≠ DFFloat64Type → seg.GetFloat64 = .error .errTypeError) ∧
    (∀ seg : Segment, seg.Typ ≠ DFStringType → seg.Typ ≠ DFHugeStringType →
      seg.GetString = .error .errTypeError) ∧
    (∀ seg : Segment, seg.Typ = DFStringType ∨ seg.Typ = DFHugeStringType →
      seg.GetString = .ok seg.Value) ∧
    (∀ seg : Segment, seg.Typ ≠ DFBinaryType → seg.Typ ≠ DFHugeBinaryType →
      seg.GetBinary = .error .errTypeError) ∧
    (∀ seg : Segment, seg.Typ ≠ DFMapType → seg.Typ ≠ DFLargeMapType →
      seg.GetMapIndex = .error .errTypeError) ∧
    (∀ seg : Segment, seg.Typ ≠ DFListType → seg.Typ ≠ DFLargeListType →
      seg.GetListIndex = .error .errTypeError) := by
  refine ⟨fun seg h => by simp [Segment.GetDocStart, h],
    fun seg h => by simp [Segment.GetDocEnd, h],
    fun seg h => by simp [Segment.GetInt8, h],
    fun seg h => by simp [Segment.GetUInt8, h],
    fun seg h => by simp [Segment.GetInt16, h],
    fun seg h => by simp [Segment.GetUInt16, h],
    fun seg h => by simp [Segment.GetInt32, h],
    fun seg h => by simp [Segment.GetUInt32, h],
    fun seg h => by simp [Segment.GetInt64, h],
    fun seg h => by simp [Segment.GetUInt64, h],
    fun seg h => by simp [Segment.GetBool, h],
    fun seg h => by simp [Segment.GetFloat32, h],
    fun seg h => by simp [Segment.GetFloat64, h],
    fun seg h1 h2 => by simp [Segment.GetString, h1, h2],
    fun seg h => ?_,
    fun seg h1 h2 => by simp [Segment.GetBinary, h1, h2],
    fun seg h1 h2 => by simp [Segment.GetMapIndex, h1, h2],
    fun seg h1 h2 => by simp [Segment.GetListIndex, h1, h2]⟩
  rcases h with h | h <;> simp [Segment.GetString, h, DFStringType, DFHugeStringType]

/-- Witness for C8's amended statement at concrete segments. -/
theorem c8_amended_tag_discipline_witness :
    Segment.GetInt8 ⟨DFUInt8Type, [1]⟩ = .error .errTypeError ∧
    Segment.GetString ⟨DFBinaryType, [1]⟩ = .error .errTypeError ∧
    Segment.GetString ⟨DFHugeStringType, [97]⟩ = .ok [97] ∧
    Segment.GetMapIndex ⟨DFListType, [0, 1]⟩ = .error .errTypeError :=
  ⟨c8_amended_tag_discipline.2.2.1 ⟨DFUInt8Type, [1]⟩ (by decide),
   c8_amended_tag_discipline.2.2.2.2.2.2.2.2.2.2.2.2.2.1 ⟨DFBinaryType, [1]⟩
     (by decide) (by decide),
   c8_amended_tag_discipline.2.2.2.2.2.2.2.2.2.2.2.2.2.2.1 ⟨DFHugeStringType, [97]⟩
     (Or.inr rfl),
   c8_amended_tag_discipline.2.2.2.2.2.2.2.2.2.2.2.2.2.2.2.2.1 ⟨DFListType, [0, 1]⟩
     (by decide) (by decide)⟩

/-- C7.  Whenever the map index segment decodes to a positive pair count and
the first key segment decodes with any tag other than the plain string tag —
including the huge-string tag — `SegmentMap.Read` fails with the invalid-key
error. -/
theorem c7_map_key_must_be_plain_string :
    ∀ (sm : SegmentMap) (bs bs1 bs2 : ByteSliceBuf) (cseg kseg : Segment) (n : Nat),
      Segment.Read bs = (bs1, .ok cseg) →
      cseg.GetMapIndex = .ok n →
      0 < n →
      Segment.Read bs1 = (bs2, .ok kseg) →
      kseg.Typ ≠ DFStringType →
      (SegmentMap.ReadM sm bs).2 = .error .errInvalidKey := by
  intro sm bs bs1 bs2 cseg kseg n h1 h2 h3 h4 h5
  obtain ⟨m, rfl⟩ : ∃ m, n = m + 1 := ⟨n - 1, by omega⟩
  simp [SegmentMap.ReadM, mapReadLoop, h1, h2, h4, h5]

/-- Witness for C7: a map whose single key is a huge-string segment is
rejected with the invalid-key error. -/
theorem c7_map_key_must_be_plain_string_witness :
    (SegmentMap.ReadM [] (mkBuf [18, 0, 1, 16, 0, 1, 0, 0, 0, 0, 0, 0, 97])).2 =
      .error .errInvalidKey :=
  c7_map_key_must_be_plain_string []
    (mkBuf [18, 0, 1, 16, 0, 1, 0, 0, 0, 0, 0, 0, 97])
    ⟨[18, 0, 1, 16, 0, 1, 0, 0, 0, 0, 0, 0, 97], 3⟩
    ⟨[18, 0, 1, 16, 0, 1, 0, 0, 0, 0, 0, 0, 97], 13⟩
    ⟨DFMapType, [0, 1]⟩ ⟨DFHugeStringType, [97]⟩ 1
    (by decide) (by decide) (by decide) (by decide) (by decide)

/-- A write whose source is at least as long as the destination buffer copies
exactly the destination-length first bytes of the source and reports no
error. -/
theorem writeM_partial_from_zero (l p : List Nat) (h0 : 0 < l.length)
    (hp : 0 < p.length) (h : l.length ≤ p.length) :
    (mkBuf l).writeM p = (⟨p.take l.length, l.length⟩, l.length, none) := by
  have hmin : min (l.length - 0) p.length = l.length := by omega
  simp only [mkBuf, ByteSliceBuf.writeM, ByteSliceBuf.writeAtM,
    if_neg (show ¬ p.length = 0 by omega),
    if_neg (show ¬ l.length ≤ 0 by omega), hmin]
  simp [List.length_take, min_eq_left h]

/-- On a map with more than 65535 entries, `SetMapIndex` chooses the large
map tag, allocates the 4-byte payload prescribed by `fixedSegmentSize`, and
stores only the first 4 of the 8 big-endian count bytes. -/
theorem setMapIndex_large (seg : Segment) (sm : SegmentMap)
    (h : 65535 < sm.length) :
    Segment.SetMapIndex seg sm = ⟨DFLargeMapType, (beBytes 8 sm.length).take 4⟩ := by
  have hfix : fixedSegmentSize DFLargeMapType = 4 := by decide
  simp only [Segment.SetMapIndex, if_pos h, hfix, if_pos rfl]
  by_cases hb : seg.Value.length = 4
  · rw [if_neg (by omega), writeM_partial_from_zero _ _ (by omega) (by simp [beBytes_length]) (by simp [beBytes_length]; omega)]
    simp [hb]
  · rw [if_pos (by omega), writeM_partial_from_zero _ _ (by simp) (by simp [beBytes_length]) (by simp [beBytes_length])]
    simp

/-- The list analogue of `setMapIndex_large`. -/
theorem setListIndex_large (seg : Segment) (sl : SegmentList)
    (h : 65535 < sl.length) :
    Segment.SetListIndex seg sl = ⟨DFLargeListType, (beBytes 8 sl.length).take 4⟩ := by
  have hfix : fixedSegmentSize DFLargeListType = 4 := by decide
  simp only [Segment.SetListIndex, if_pos h, hfix, if_pos rfl]
  by_cases hb : seg.Value.length = 4
  · rw [if_neg (by omega), writeM_partial_from_zero _ _ (by omega) (by simp [beBytes_length]) (by simp [beBytes_length]; omega)]
    simp [hb]
  · rw [if_pos (by omega), writeM_partial_from_zero _ _ (by simp) (by simp [beBytes_length]) (by simp [beBytes_length])]
    simp

/-- C3.  For a map or list with more than 65535 members, `SetMapIndex` and
`SetListIndex` select the large-variant tag but size the payload with the
4-byte rule `fixedSegmentSize` also applies to 32-bit fixed fields, while the
encoder writes the 64-bit big-endian count into that 4-byte buffer; only the
first 4 bytes — the high half — survive, so the stored count is
`count / 2^32 (mod 2^32)`, which never equals the member count, and which is
0 (a corrupted index) for every count below `2^32`. -/
theorem c3_large_index_count_truncated :
    ∀ (seg lseg : Segment) (sm : SegmentMap) (sl : SegmentList),
      65535 < sm.length → 65535 < sl.length →
      (Segment.SetMapIndex seg sm).Typ = DFLargeMapType ∧
      fixedSegmentSize DFLargeMapType = 4 ∧
      fixedSegmentSize DFInt32Type = 4 ∧
      (Segment.SetMapIndex seg sm).Value = (beBytes 8 sm.length).take 4 ∧
      (Segment.SetMapIndex seg sm).Value.length = 4 ∧
      beVal (Segment.SetMapIndex seg sm).Value = sm.length / 2 ^ 32 % 2 ^ 32 ∧
      (sm.length < 2 ^ 32 → beVal (Segment.SetMapIndex seg sm).Value = 0) ∧
      beVal (Segment.SetMapIndex seg sm).Value ≠ sm.length ∧
      (Segment.SetListIndex lseg sl).Typ = DFLargeListType ∧
      (Segment.SetListIndex lseg sl).Value = (beBytes 8 sl.length).take 4 := by
  intro seg lseg sm sl hm hl
  have htake : (beBytes 8 sm.length).take 4 = beBytes 4 (sm.length / 256 ^ 4) := by
    have h := beBytes_take 4 4 sm.length
    norm_num at h
    exact h
  have hval : beVal ((beBytes 8 sm.length).take 4) = sm.length / 2 ^ 32 % 2 ^ 32 := by
    rw [htake, beVal_beBytes]
    norm_num
  refine ⟨?_, by decide, by decide, ?_, ?_, ?_, ?_, ?_, ?_, ?_⟩
  · rw [setMapIndex_large seg sm hm]
  · rw [setMapIndex_large seg sm hm]
  · rw [setMapIndex_large seg sm hm]
    simp [List.length_take, beBytes_length]
  · rw [setMapIndex_large seg sm hm]
    exact hval
  · intro hsmall
    rw [setMapIndex_large seg sm hm]
    rw [hval, Nat.div_eq_of_lt hsmall]
    simp
  · rw [setMapIndex_large seg sm hm, hval]
    intro heq
    have h1 : sm.length / 2 ^ 32 % 2 ^ 32 ≤ sm.length / 2 ^ 32 := Nat.mod_le _ _
    have h2 : sm.length / 2 ^ 32 < sm.length := by
      apply Nat.div_lt_self (by omega)
      norm_num
    omega
  · rw [setListIndex_large lseg sl hl]
  · rw [setListIndex_large lseg sl hl]

/-- Witness for C3 at a concrete 65536-entry map and list. -/
theorem c3_large_index_count_truncated_witness :
    (Segment.SetMapIndex ⟨0, []⟩ (List.replicate 65536 ([0], ⟨DFUInt8Type, [1]⟩))).Typ =
      DFLargeMapType ∧
    beVal (Segment.SetMapIndex ⟨0, []⟩
      (List.replicate 65536 ([0], ⟨DFUInt8Type, [1]⟩))).Value = 0 := by
  have h := c3_large_index_count_truncated ⟨0, []⟩ ⟨0, []⟩
    (List.replicate 65536 ([0], ⟨DFUInt8Type, [1]⟩))
    (List.replicate 65536 ⟨DFUInt8Type, [1]⟩)
    (by rw [List.length_replicate]; norm_num) (by rw [List.length_replicate]; norm_num)
  exact ⟨h.1, h.2.2.2.2.2.2.1 (by rw [List.length_replicate]; norm_num)⟩

/-- Writing any segment whose tag has an 8-byte size field fails with `ErrIO`
when the destination has room: `WriteSegment` writes the 8 size bytes and then
validates the count against the constant 2, which can never hold. -/
theorem writeSegment_sizeField8_errIo (bs : ByteSliceBuf) (t : Nat) (v : List Nat)
    (ht : sizeSegmentSize t = 8) (hi : bs.Index = 0) (hlen : 9 ≤ bs.Buffer.length) :
    (WriteSegment bs t v).2 = some .errIo := by
  obtain ⟨buf, idx⟩ := bs
  simp only at hi hlen
  subst hi
  have h1 : (⟨buf, 0⟩ : ByteSliceBuf).writeM [t % 256] =
      (⟨[t % 256] ++ buf.drop 1, 1⟩, 1, none) := by
    rw [writeM_ok _ _ (by simp) (by simp; omega)]
    simp
  have h2 := writeM_ok (⟨[t % 256] ++ buf.drop 1, 1⟩ : ByteSliceBuf)
    (beBytes 8 v.length) (beBytes_ne_nil 8 _ (by omega))
    (by simp [beBytes_length, List.length_drop]; omega)
  simp only [WriteSegment, h1, h2, ht, beBytes_length]
  norm_num

/-- C2.  The round-trip property fails at the claimed boundary values: every
string long enough to force the huge variant cannot even be encoded —
`Segment.Write` of the segment produced by `SetString` fails with `ErrIO`
because `WriteSegment` checks the 8 written size-field bytes against the
constant 2 — and the empty string cannot be encoded either, because the
in-memory writer rejects the zero-length payload write with its empty-data
error.  A short string such as `abcdef` does round-trip exactly, with the
encoded length equal to `GetSize` (the 9-byte destination buffer is filled
completely). -/
theorem c2_round_trip_boundary_broken :
    (∀ v : List Nat, 65535 < v.length →
      (Segment.Write (Segment.SetString ⟨0, []⟩ v)
          (mkZeroBuf (Segment.SetString ⟨0, []⟩ v).GetSize)).2 = some .errIo) ∧
    (WriteSegment (mkZeroBuf 3) DFStringType []).2 = some .errEmptyDataM ∧
    (WriteSegment (mkZeroBuf 9) DFStringType strAbcdef).2 = none ∧
    UnflattenSegment (WriteSegment (mkZeroBuf 9) DFStringType strAbcdef).1.Buffer =
      .ok ⟨DFStringType, strAbcdef⟩ := by
  refine ⟨fun v hv => ?_, by decide, by decide, by decide⟩
  have hset : Segment.SetString ⟨0, []⟩ v = ⟨DFHugeStringType, v⟩ := by
    simp only [Segment.SetString]
    rw [if_pos hv]
  rw [hset]
  simp only [Segment.Write]
  have hfix : fixedSegmentSize DFHugeStringType = 0 := by decide
  have hss : sizeSegmentSize DFHugeStringType = 8 := by decide
  apply writeSegment_sizeField8_errIo
  · decide
  · rfl
  · have hsz : Segment.GetSize ⟨DFHugeStringType, v⟩ = v.length + 8 + 1 := by
      simp only [Segment.GetSize, hfix, hss]
      norm_num
    rw [hsz]
    simp only [mkZeroBuf]
    rw [List.length_replicate]
    omega

/-- Witness for C2 at the 65536-byte string forcing the huge variant. -/
theorem c2_round_trip_boundary_broken_witness :
    (Segment.Write (Segment.SetString ⟨0, []⟩ (List.replicate 65536 97))
        (mkZeroBuf (Segment.SetString ⟨0, []⟩ (List.replicate 65536 97)).GetSize)).2 =
      some .errIo :=
  c2_round_trip_boundary_broken.1 (List.replicate 65536 97)
    (by rw [List.length_replicate]; norm_num)

/-- A big-endian read of exactly the whole payload buffer. -/
theorem binReadBytes_exact (l : List Nat) (w : Nat) (h0 : 0 < w)
    (h : l.length = w) : binReadBytes (mkBuf l) w = (⟨l, w⟩, .ok l) := by
  rw [binReadBytes, mkBuf, readM_ok _ _ h0 (by simp [h])]
  have hdt : (l.drop 0).take w = l := by
    rw [List.drop_zero, ← h, List.take_length]
  simp [hdt, h]

/-- Reading the concrete-scenario envelope whose end marker carries an
arbitrary 64-bit count `c`: the read succeeds exactly when `c` is 6 — the
count recomputed from the two parsed attachments — and fails with the
size-mismatch error `ErrSize` otherwise. -/
theorem unflatten_envWithEnd (c : Nat) (hc : c < 2 ^ 64) :
    WireMsg.Unflatten (envWithEnd c) =
      (if c = 6 then
        .ok ⟨strTestMsg, [(strTestString, ⟨DFStringType, strAbcdef⟩),
          (strTestInt, ⟨DFInt64Type, [0, 0, 0, 0, 0, 0, 0, 42]⟩)]⟩
      else .error .errSize) := by
  have htake : (beBytes 8 c).take 8 = beBytes 8 c := by
    have h := List.take_length (beBytes 8 c)
    rwa [beBytes_length] at h
  have hval : beVal (beBytes 8 c) = c := by
    rw [beVal_beBytes]
    exact Nat.mod_eq_of_lt (by norm_num; omega)
  simp [WireMsg.Unflatten, WireMsg.ReadM, envWithEnd, envHead56, mkBuf, Segment.Read,
    SegmentMap.ReadM, mapReadLoop, assocSet, Segment.GetMapIndex, Segment.GetDocEnd,
    binReadBytes, ByteSliceBuf.readM, ByteSliceBuf.readAtM, isTypeCodeValid,
    sizeSegmentSize, fixedSegmentSize, beBytes_length, htake, hval,
    DFUpperBound, DFDocumentStart, DFDocumentEnd, DFStringType, DFBinaryType,
    DFHugeStringType, DFHugeBinaryType, DFMapType, DFListType, DFLargeMapType,
    DFLargeListType, DFInt8Type, DFUInt8Type, DFInt16Type, DFUInt16Type, DFInt32Type,
    DFUInt32Type, DFInt64Type, DFUInt64Type, DFBoolType, DFFloat32Type, DFFloat64Type,
    Nat.min_def, strTestMsg, strTestString, strTestInt, strAbcdef,
    (show beVal [0, 2] = 2 by decide)]
  split <;> rfl

/-- C5.  The end marker written by `Flatten` for the two-attachment command
message carries the count `2*2 + 2 = 6` (the flattened envelope is exactly
`envWithEnd 6`); the end-marker segment built by `Flatten` for any
attachment count `n` decodes back to `2n + 2`; and reading the otherwise
valid envelope whose end count is any 64-bit value `c` fails with the
size-mismatch error `ErrSize` exactly when `c` differs from
`2 × parsedAttachments + 2 = 6` — so corrupting the count by ±1 makes the
read fail, and the untouched envelope reads back successfully. -/
theorem c5_end_marker_count_checked :
    testMsgWire.Flatten = .ok (envWithEnd 6) ∧
    (∀ n : Nat,
      (Segment.SetDocEnd ⟨0, []⟩ (n * 2 + 2)).GetDocEnd = .ok ((n * 2 + 2) % 2 ^ 64)) ∧
    (∀ c : Nat, c < 2 ^ 64 →
      (WireMsg.Unflatten (envWithEnd c) = .error .errSize ↔ c ≠ 6)) ∧
    WireMsg.Unflatten (envWithEnd 6) =
      .ok ⟨strTestMsg, [(strTestString, ⟨DFStringType, strAbcdef⟩),
        (strTestInt, ⟨DFInt64Type, [0, 0, 0, 0, 0, 0, 0, 42]⟩)]⟩ := by
  refine ⟨by decide, ?_, ?_, by decide⟩
  · intro n
    have hb := binReadBytes_exact (beBytes 8 (n * 2 + 2)) 8 (by omega)
      (beBytes_length 8 _)
    simp [Segment.SetDocEnd, Segment.GetDocEnd, hb, beVal_beBytes, DFDocumentEnd]
  · intro c hc
    rw [unflatten_envWithEnd c hc]
    by_cases h : c = 6 <;> simp [h]

/-- Witness for C5: corrupting the end count of the valid envelope by plus or
minus one makes the read fail with the size-mismatch error, and the
two-attachment end segment decodes to 6. -/
theorem c5_end_marker_count_checked_witness :
    (WireMsg.Unflatten (envWithEnd 7) = .error .errSize ↔ 7 ≠ 6) ∧
    (WireMsg.Unflatten (envWithEnd 5) = .error .errSize ↔ 5 ≠ 6) ∧
    (Segment.SetDocEnd ⟨0, []⟩ (2 * 2 + 2)).GetDocEnd = .ok ((2 * 2 + 2) % 2 ^ 64) :=
  ⟨c5_end_marker_count_checked.2.2.1 7 (by norm_num),
   c5_end_marker_count_checked.2.2.1 5 (by norm_num),
   c5_end_marker_count_checked.2.1 2⟩
